import Mathlib

/-!
Shallow embedding of `build.py` (Giraffe, a music-portfolio static-site
builder) and proofs about its incremental publish pipeline, asset scanning,
rendering and orchestration.

Conventions used throughout:
* a local file is its byte content, a `List Nat`; its size is the length;
* the external MD5 hex digest of `hashlib` is an abstract parameter
  `md5hex : List Nat → String` (streaming 4096-byte chunks through
  `hashlib.md5` hashes the concatenated content, so only the digest of the
  whole content is observable);
* remote-store interactions are modelled by explicit outcome values
  (`HeadResult`, upload success flags), and Python exceptions that escape a
  function are modelled by `Except`, with `.error ()` standing for a raised
  exception.
-/

namespace Giraffe

/-- Code-point comparison of strings as lists of characters: Python's
string order (`a <= b` used by `sorted`) is lexicographic on code points. -/
def charListLe : List Char → List Char → Bool
  | [], _ => true
  | _ :: _, [] => false
  | a :: as, b :: bs =>
    if a.toNat < b.toNat then true
    else if b.toNat < a.toNat then false
    else charListLe as bs

/-- Filename comparison used by `sorted(..., key=lambda p: p.name)`. -/
def nameLe (a b : String) : Bool := charListLe a.data b.data

/-- Insert an element into a list so that the result is sorted by `le`
whenever the list was. -/
def insertSortedBy {α : Type} (le : α → α → Bool) (x : α) : List α → List α
  | [] => [x]
  | y :: ys => if le x y then x :: y :: ys else y :: insertSortedBy le x ys

/-- Insertion sort; embeds Python's `sorted` (for the total orders used
here, with ties only between equal elements, every sort returns the same
list). -/
def sortBy {α : Type} (le : α → α → Bool) : List α → List α
  | [] => []
  | x :: xs => insertSortedBy le x (sortBy le xs)

/-- Lower-casing of an ASCII letter, the relevant fragment of Python
`str.lower` for extension comparison. -/
def charLower (c : Char) : Char :=
  if 65 ≤ c.toNat ∧ c.toNat ≤ 90 then Char.ofNat (c.toNat + 32) else c

/-- Outcome of an S3 `head_object` call as observed by `file_needs_upload`:
the object's metadata (raw ETag string and ContentLength), a botocore
`ClientError` carrying the error code string (for example `"404"`), or an
exception of any other type (for example a connection error), which the
`except ClientError` clause in `file_needs_upload` does not catch. -/
inductive HeadResult where
  | found (etagRaw : String) (size : Nat)
  | clientError (code : String)
  | raises
deriving DecidableEq

/-- Python `str.strip` with a single character argument: removes every
leading and trailing occurrence of `c`.  Embeds `response['ETag'].strip('"')`. -/
def pyStrip (c : Char) (s : String) : String :=
  String.mk (((s.toList.dropWhile (· == c)).reverse.dropWhile (· == c)).reverse)

/-- Embeds `GiraffeBuilder.calculate_md5`: the file is read in 4096-byte
chunks, each fed to the incremental `hashlib.md5` state, and the hex digest is
returned.  Incrementally updating over consecutive chunks digests the
concatenated content, so the result is `md5hex` of the whole content, where
`md5hex` abstracts the external digest function. -/
def calculate_md5 (md5hex : List Nat → String) (content : List Nat) : String :=
  md5hex content

/-- Embeds `GiraffeBuilder.file_needs_upload`.  Returns `.ok (needs_upload,
etag)` for a normal return and `.error ()` when an exception propagates out of
the function (the `except` clause catches only `ClientError`, so any other
exception raised by `head_object` escapes). -/
def file_needs_upload (hasClient : Bool) (md5hex : List Nat → String)
    (content : List Nat) (head : HeadResult) :
    Except Unit (Bool × Option String) :=
  if hasClient = false then .ok (true, none)
  else
    match head with
    | .found etagRaw s3_size =>
      let s3_etag := pyStrip '"' etagRaw
      let local_size := content.length
      if s3_etag.data.contains '-' then
        -- multipart upload: compare file sizes instead of MD5
        if s3_size = local_size then .ok (false, some s3_etag)
        else .ok (true, some s3_etag)
      else
        -- simple upload: compare MD5 hash
        let local_md5 := calculate_md5 md5hex content
        if s3_etag = local_md5 then .ok (false, some s3_etag)
        else .ok (true, some s3_etag)
    | .clientError code =>
      if code = "404" then .ok (true, none)
      else .ok (true, none)
    | .raises => .error ()

/-- Match of a Python `pathlib` glob pattern `*.<ext>` against a filename:
the name ends with `.<ext>` (the star of `pathlib.Path.glob` matches any
run of characters within one name, dotfiles included, and matching is
case-sensitive). -/
def globMatch (ext : String) (name : String) : Bool :=
  ("." ++ ext).data.isSuffixOf name.data

/-- Image extension list of `Track.find_files` (all-lowercase and
all-uppercase variants, in source order). -/
def image_extensions : List String :=
  ["jpg", "jpeg", "png", "gif", "webp", "JPG", "JPEG", "PNG", "GIF", "WEBP"]

/-- Embeds `Track.find_files` on the list of filenames of the track
directory, in directory-listing order.  Returns
`(wav_path, image_paths, cover_path)` on success and `none` when no WAV
file or no image is found; the image list is sorted by filename and the
cover is its first element. -/
def find_files (entries : List String) : Option (String × List String × String) :=
  match entries.filter (globMatch "wav") ++ entries.filter (globMatch "WAV") with
  | [] => none
  | wav :: _ =>
    match sortBy nameLe (image_extensions.foldl
        (fun acc ext => acc ++ entries.filter (globMatch ext)) []) with
    | [] => none
    | cover :: rest => some (wav, cover :: rest, cover)

/-- Modelled from the claim's words, for comparison with `find_files`: a
filename whose extension matches the accepted image extension set
case-insensitively. -/
def matchesImageCI (name : String) : Bool :=
  ["jpg", "jpeg", "png", "gif", "webp"].any
    (fun ext => ("." ++ ext).data.isSuffixOf (name.data.map charLower))

/-- Split at the first occurrence of the frontmatter delimiter `---`:
returns the text before and the text after, or `none` when the delimiter
does not occur. -/
def splitFirstDashes : List Char → Option (List Char × List Char)
  | [] => none
  | '-' :: '-' :: '-' :: rest => some ([], rest)
  | c :: rest =>
    match splitFirstDashes rest with
    | none => none
    | some (a, b) => some (c :: a, b)

/-- Python `content.split('---', 2)`: at most three parts, occurrences of
the delimiter beyond the second kept intact in the last part. -/
def pySplitMax2Dashes (s : List Char) : List (List Char) :=
  match splitFirstDashes s with
  | none => [s]
  | some (a, r1) =>
    match splitFirstDashes r1 with
    | none => [a, r1]
    | some (b, r2) => [a, b, r2]

/-- Embeds `Track.load_metadata`.  The directory's files are
`(name, content)` pairs; `yamlParse` abstracts `yaml.safe_load` on the
frontmatter block, returning `none` for a YAML null document (the source
then substitutes the empty mapping via `or {}`).  Returns the parsed
metadata mapping on success and `none` when the track is rejected (no
markdown file, missing or malformed frontmatter, or missing title). -/
def load_metadata (yamlParse : String → Option (List (String × String)))
    (files : List (String × String)) : Option (List (String × String)) :=
  match (files.filter (fun f => globMatch "md" f.1)).head? with
  | none => none
  | some (_, content) =>
    if "---".data.isPrefixOf content.data then
      match pySplitMax2Dashes content.data with
      | _ :: meta :: _ :: _ =>
        if ((yamlParse (String.mk meta)).getD []).any (fun kv => kv.1 == "title") then
          some ((yamlParse (String.mk meta)).getD [])
        else none
      | _ => none
    else none

/-- One entry of the tracks directory as seen by `scan_tracks`: its name,
whether it is a directory, and its files as `(filename, content)` pairs in
listing order. -/
structure DirEntry where
  name : String
  isDir : Bool
  files : List (String × String)
deriving DecidableEq

/-- A `Track` as it leaves `scan_tracks`: both loaders succeeded, so the
metadata mapping, the single chosen WAV path, the sorted image list and the
primary cover are all populated. -/
structure TrackModel where
  name : String
  metadata : List (String × String)
  wav : String
  images : List String
  cover : String
deriving DecidableEq

/-- Embeds `GiraffeBuilder.scan_tracks`: iterates the track directory
entries sorted descending by name (`sorted(..., reverse=True)`), skips
non-directories and the directory named `example-track`, and keeps exactly
the tracks for which `load_metadata` and `find_files` both succeed. -/
def scan_tracks (yamlParse : String → Option (List (String × String)))
    (dirs : List DirEntry) : List TrackModel :=
  (sortBy (fun a b => nameLe b.name a.name) dirs).filterMap (fun d =>
    if d.isDir = false then none
    else if d.name = "example-track" then none
    else
      match load_metadata yamlParse d.files with
      | none => none
      | some md =>
        match find_files (d.files.map (·.1)) with
        | none => none
        | some (wav, imgs, cover) => some ⟨d.name, md, wav, imgs, cover⟩)

/-- Filesystem state relevant to `encode_mp3` for one track: whether the
artifact `<slug>.mp3` exists, its modification time, and the WAV source's
modification time. -/
structure EncodeState where
  mp3Exists : Bool
  mp3Mtime : Nat
  wavMtime : Nat
deriving DecidableEq

/-- Outcome of one ffmpeg invocation: exit status 0, a nonzero exit status,
or `subprocess.TimeoutExpired`. -/
inductive EncodeOutcome where
  | success
  | errorExit
  | timeoutExpired
deriving DecidableEq

/-- The ffmpeg invocation block of `encode_mp3` (the `subprocess.run` call
and its three outcomes): a zero exit status yields the artifact path and a
filesystem in which the artifact exists with modification time `now`; a
nonzero exit status or a timeout yields no artifact (the state is modelled
as unchanged, no usable artifact being produced). -/
def ffmpegRun (dir slug : String) (st : EncodeState) (enc : EncodeOutcome)
    (now : Nat) : Option String × Bool × EncodeState :=
  match enc with
  | .success => (some (dir ++ "/" ++ slug ++ ".mp3"), true, ⟨true, now, st.wavMtime⟩)
  | _ => (none, true, st)

/-- Embeds `GiraffeBuilder.encode_mp3`.  Returns the artifact path (or
`none` on failure), whether ffmpeg was invoked, and the filesystem state
afterwards.  The encoder is skipped exactly when the artifact exists and its
modification time is strictly greater than the source's. -/
def encode_mp3 (dir slug : String) (st : EncodeState) (enc : EncodeOutcome)
    (now : Nat) : Option String × Bool × EncodeState :=
  if st.mp3Exists then
    if st.mp3Mtime > st.wavMtime then (some (dir ++ "/" ++ slug ++ ".mp3"), false, st)
    else ffmpegRun dir slug st enc now
  else ffmpegRun dir slug st enc now

/-- Externally observable side-effecting step of the builder: the ffmpeg
dependency check, an ffmpeg invocation for a slug, an S3 metadata query for a
key, an S3 object upload for a key with a content type, and the render step. -/
inductive Action where
  | checkDeps
  | encode (slug : String)
  | headObject (key : String)
  | putObject (key : String) (contentType : String)
  | render
deriving DecidableEq

/-- Remote-store behaviour for the two keys of one track: the `head_object`
outcomes and whether each `upload_file` call succeeds (`false` models a
raised transport error). -/
structure S3World where
  mp3Head : HeadResult
  wavHead : HeadResult
  mp3UploadOk : Bool
  wavUploadOk : Bool
deriving DecidableEq

/-- Observable result of `upload_to_s3`: its return value, the two URL
fields of the track afterwards (`none` when the field was never assigned),
and the S3 calls attempted, in order. -/
structure UploadResult where
  success : Bool
  mp3_url : Option String
  wav_url : Option String
  calls : List Action
deriving DecidableEq

/-- The WAV half of `upload_to_s3`, entered after the MP3 was uploaded or
found current and `track.mp3_url` was assigned `mp3url`; `c` is the list of
S3 calls made so far.  Mirrors the source lines from the
`if not track.wav_path` guard to the final `return True`. -/
def wavStage (hc : Bool) (baseUrl : String) (md5hex : List Nat → String)
    (slug : String) (wavFile : Option (List Nat)) (w : S3World)
    (mp3url : String) (c : List Action) : UploadResult :=
  match wavFile with
  | none => ⟨false, some mp3url, none, c⟩
  | some wf =>
    match file_needs_upload hc md5hex wf w.wavHead with
    | .error _ => ⟨false, some mp3url, none,
        c ++ [Action.headObject (slug ++ "/" ++ slug ++ ".wav")]⟩
    | .ok (needs2, _) =>
      if needs2 then
        if w.wavUploadOk then
          ⟨true, some mp3url, some (baseUrl ++ "/" ++ (slug ++ "/" ++ slug ++ ".wav")),
            c ++ [Action.headObject (slug ++ "/" ++ slug ++ ".wav"),
              Action.putObject (slug ++ "/" ++ slug ++ ".wav") "audio/wav"]⟩
        else
          ⟨false, some mp3url, none,
            c ++ [Action.headObject (slug ++ "/" ++ slug ++ ".wav"),
              Action.putObject (slug ++ "/" ++ slug ++ ".wav") "audio/wav"]⟩
      else
        ⟨true, some mp3url, some (baseUrl ++ "/" ++ (slug ++ "/" ++ slug ++ ".wav")),
          c ++ [Action.headObject (slug ++ "/" ++ slug ++ ".wav")]⟩

/-- Embeds `GiraffeBuilder.upload_to_s3`.  An exception raised by
`file_needs_upload` or by an upload is caught by the `except` clauses at the
bottom of the source function, which return `False`; URL fields assigned
before the raise keep their values.  `wavFile` is `none` when
`track.wav_path` is unset. -/
def upload_to_s3 (hasClient bucketSet : Bool) (baseUrl : String)
    (md5hex : List Nat → String) (slug : String)
    (mp3File : List Nat) (wavFile : Option (List Nat)) (w : S3World) : UploadResult :=
  if hasClient = false ∨ bucketSet = false then
    ⟨false, none, none, []⟩
  else
    match file_needs_upload hasClient md5hex mp3File w.mp3Head with
    | .error _ => ⟨false, none, none, [Action.headObject (slug ++ "/" ++ slug ++ ".mp3")]⟩
    | .ok (needs1, _) =>
      if needs1 then
        if w.mp3UploadOk then
          wavStage hasClient baseUrl md5hex slug wavFile w
            (baseUrl ++ "/" ++ (slug ++ "/" ++ slug ++ ".mp3"))
            [Action.headObject (slug ++ "/" ++ slug ++ ".mp3"),
              Action.putObject (slug ++ "/" ++ slug ++ ".mp3") "audio/mpeg"]
        else
          ⟨false, none, none,
            [Action.headObject (slug ++ "/" ++ slug ++ ".mp3"),
              Action.putObject (slug ++ "/" ++ slug ++ ".mp3") "audio/mpeg"]⟩
      else
        wavStage hasClient baseUrl md5hex slug wavFile w
          (baseUrl ++ "/" ++ (slug ++ "/" ++ slug ++ ".mp3"))
          [Action.headObject (slug ++ "/" ++ slug ++ ".mp3")]

/-- Output tree of the generated site: the file names under `docs/assets`,
`docs/covers` and `docs/tracks`, and whether `docs/index.html` exists. -/
structure OutputTree where
  assets : List String
  covers : List String
  trackPages : List String
  hasIndex : Bool
deriving DecidableEq

/-- Names present after copying files one by one into a directory: a copy to
an existing name overwrites it, so the resulting name set is the union. -/
def copyInto (old new : List String) : List String :=
  old ++ new.filter (fun n => !(old.contains n))

/-- Embeds `GiraffeBuilder.generate_site` as a transformer of the output
tree.  `assetsSrc` lists the files of the source assets directory (`none`
when that directory does not exist, in which case the destination assets are
left untouched); when present, the destination assets subtree is deleted
with `shutil.rmtree` and recreated as an exact copy.  Cover images
(slug-prefixed) and track pages are written file by file into directories
created with `exist_ok=True`, so names already present from earlier runs
persist.  The index page is always written.  The source function always
returns `True`; a raising render is modelled at the build level. -/
def generate_site (assetsSrc : Option (List String)) (tracks : List TrackModel)
    (prev : OutputTree) : OutputTree :=
  let assets' := match assetsSrc with
    | some src => src
    | none => prev.assets
  let newCovers := tracks.flatMap (fun t => t.images.map (fun i => t.name ++ "-" ++ i))
  let newPages := tracks.map (fun t => t.name ++ ".html")
  { assets := assets'
    covers := copyInto prev.covers newCovers
    trackPages := copyInto prev.trackPages newPages
    hasIndex := true }

/-- All inputs of one run of `GiraffeBuilder.build`: the CLI flag, the
ffmpeg availability, the tracks directory, per-slug filesystem and encoder
behaviour, the S3 configuration and per-slug remote behaviour, the assets
source, the pre-existing output tree, and whether the render step raises. -/
structure BuildInput where
  staticOnly : Bool
  depsOk : Bool
  dirs : List DirEntry
  encStates : String → EncodeState
  encOutcome : String → EncodeOutcome
  now : Nat
  hasClient : Bool
  bucketSet : Bool
  baseUrl : String
  md5hex : List Nat → String
  s3 : String → S3World
  mp3Bytes : String → List Nat
  wavBytes : String → List Nat
  assetsSrc : Option (List String)
  prevOutput : OutputTree
  renderRaises : Bool

/-- One iteration of the per-track loop of `build` in full mode: encode,
and on encoding success upload both artifacts.  Returns the actions
performed; failures never propagate (encode_mp3 and upload_to_s3 catch their
exceptions and the loop `continue`s on a missing artifact). -/
def processTrack (bi : BuildInput) (t : TrackModel) : List Action :=
  let e := encode_mp3 t.name t.name (bi.encStates t.name) (bi.encOutcome t.name) bi.now
  let encActs := if e.2.1 then [Action.encode t.name] else []
  match e.1 with
  | none => encActs
  | some _ =>
    encActs ++ (upload_to_s3 bi.hasClient bi.bucketSet bi.baseUrl bi.md5hex t.name
      (bi.mp3Bytes t.name) (some (bi.wavBytes t.name)) (bi.s3 t.name)).calls

/-- Result of one run of `build`: the boolean return value (or a raised
exception as `.error ()`), the observable actions in order, and the output
tree afterwards (left as the previous tree when rendering raises, since no
claim inspects a partially rendered tree). -/
structure BuildOutcome where
  result : Except Unit Bool
  actions : List Action
  output : OutputTree

/-- Embeds `GiraffeBuilder.build`: dependency check (skipped in static-only
mode), track scan, fatal failure on an empty scan, the per-track
encode-and-upload loop (skipped in static-only mode), then `generate_site`. -/
def build (yamlParse : String → Option (List (String × String)))
    (bi : BuildInput) : BuildOutcome :=
  if bi.staticOnly = false ∧ bi.depsOk = false then
    { result := .ok false, actions := [Action.checkDeps], output := bi.prevOutput }
  else
    let depActs := if bi.staticOnly then [] else [Action.checkDeps]
    let tracks := scan_tracks yamlParse bi.dirs
    if tracks.isEmpty then
      { result := .ok false, actions := depActs, output := bi.prevOutput }
    else
      let loopActs := if bi.staticOnly then [] else tracks.flatMap (processTrack bi)
      if bi.renderRaises then
        { result := .error (), actions := depActs ++ loopActs, output := bi.prevOutput }
      else
        { result := .ok true, actions := depActs ++ loopActs ++ [Action.render],
          output := generate_site bi.assetsSrc tracks bi.prevOutput }

/-- Models `main`: `sys.exit(0 if success else 1)`; an exception propagating
out of `build` also terminates the interpreter with a nonzero status. -/
def exitCode (r : Except Unit Bool) : Nat :=
  match r with
  | .ok true => 0
  | .ok false => 1
  | .error _ => 1

/-- Concrete stand-in for `yaml.safe_load` used by the concrete instances
below: parses exactly the frontmatter block of `toyMd`. -/
def toyYamlParse (s : String) : Option (List (String × String)) :=
  if s == "\ntitle: X\n" then some [("title", "X")] else none

/-- A markdown content file with well-formed frontmatter and a title. -/
def toyMd : String := "---\ntitle: X\n---\nbody"

/-- A track directory with two images, a content file whose metadata parses,
and no audio master. -/
def boundaryDir : DirEntry :=
  ⟨"boundary", true, [("a.jpg", ""), ("b.jpg", ""), ("info.md", toyMd)]⟩

/-- A directory named `example-track` holding a valid content file, an audio
master and an image. -/
def exampleDir : DirEntry :=
  ⟨"example-track", true, [("cover.jpg", ""), ("master.wav", ""), ("info.md", toyMd)]⟩

/-- A fully valid track directory. -/
def validDir : DirEntry :=
  ⟨"my-song", true, [("cover.jpg", ""), ("master.wav", ""), ("info.md", toyMd)]⟩

/-- A concrete static-only build input over `validDir` with no remote-store
configuration and a previously encoded artifact present. -/
def toyBuildInput : BuildInput :=
  { staticOnly := true
    depsOk := false
    dirs := [validDir]
    encStates := fun _ => ⟨true, 5, 3⟩
    encOutcome := fun _ => .success
    now := 10
    hasClient := false
    bucketSet := false
    baseUrl := "https://cdn"
    md5hex := fun _ => "h"
    s3 := fun _ => ⟨.clientError "404", .clientError "404", true, true⟩
    mp3Bytes := fun _ => []
    wavBytes := fun _ => []
    assetsSrc := some ["style.css"]
    prevOutput := ⟨[], [], [], false⟩
    renderRaises := false }

/-- Claim C1: when the remote store returns an object, `file_needs_upload`
decides by the shape of the integrity tag — a tag containing the multipart
delimiter `-` gives "skip upload" exactly when the remote size equals the
local size, a plain tag gives "skip upload" exactly when the local MD5 hex
digest equals the tag — and a not-found response gives "needs upload" with
no prior tag; in each case the boolean decision is returned together with
the observed (quote-stripped) remote tag, or `none`. -/
theorem claim_C1_comparator_decision (md5hex : List Nat → String)
    (content : List Nat) (etagRaw : String) (s3_size : Nat) :
    file_needs_upload true md5hex content (.found etagRaw s3_size) =
      (if (pyStrip '"' etagRaw).data.contains '-' then
        (if s3_size = content.length then .ok (false, some (pyStrip '"' etagRaw))
         else .ok (true, some (pyStrip '"' etagRaw)))
      else
        (if md5hex content = pyStrip '"' etagRaw then .ok (false, some (pyStrip '"' etagRaw))
         else .ok (true, some (pyStrip '"' etagRaw)))) ∧
    file_needs_upload true md5hex content (.clientError "404") = .ok (true, none) := by
  refine ⟨?_, rfl⟩
  by_cases hc : '-' ∈ (pyStrip '"' etagRaw).data
  · simp [file_needs_upload, calculate_md5, hc]
  · by_cases hm : pyStrip '"' etagRaw = md5hex content
    · simp [file_needs_upload, calculate_md5, hc, hm.symm]
    · have hm' : ¬ (md5hex content = pyStrip '"' etagRaw) := fun h => hm h.symm
      simp [file_needs_upload, calculate_md5, hc, hm, hm']

/-- Claim C2 counterexample: a metadata query failure that is not a
`ClientError` (for example a connection error) makes `file_needs_upload`
raise out of its caller's decision step instead of returning "needs
upload": the comparator propagates the exception, and the publisher's
catch-all handler returns `False` having attempted no upload and set no
URL field. -/
theorem claim_C2_counterexample :
    file_needs_upload true (fun _ => "") [] .raises = .error () ∧
    upload_to_s3 true true "https://cdn" (fun _ => "") "t" [] (some [])
        ⟨.raises, .raises, true, true⟩ =
      ⟨false, none, none, [Action.headObject "t/t.mp3"]⟩ :=
  ⟨rfl, rfl⟩

/-- Claim C2 (amended): a metadata query failure signalled as a
`ClientError` with a code other than the not-found code `"404"` makes
`file_needs_upload` return normally with "needs upload" and no tag; a query
failure of any other exception type instead propagates out of the
comparator and is caught by the publisher's catch-all handler, which
returns `False` having attempted no upload and set no URL field. -/
theorem claim_C2_amended (md5hex : List Nat → String) (content : List Nat)
    (code : String) (hcode : code ≠ "404") (baseUrl slug : String)
    (wavFile : Option (List Nat)) (w : S3World) :
    file_needs_upload true md5hex content (.clientError code) = .ok (true, none) ∧
    file_needs_upload true md5hex content .raises = .error () ∧
    upload_to_s3 true true baseUrl md5hex slug content wavFile
        { w with mp3Head := .raises } =
      ⟨false, none, none, [Action.headObject (slug ++ "/" ++ slug ++ ".mp3")]⟩ := by
  refine ⟨?_, rfl, rfl⟩
  simp [file_needs_upload]

/-- Claim C2 amended, witness at a concrete non-404 code. -/
theorem claim_C2_amended_witness :
    file_needs_upload true (fun _ => "d41d") [7] (.clientError "403") = .ok (true, none) ∧
    file_needs_upload true (fun _ => "d41d") [7] .raises = .error () ∧
    upload_to_s3 true true "https://cdn" (fun _ => "d41d") "song" [7] (some [7])
        { (⟨.found "x" 0, .found "x" 0, true, true⟩ : S3World) with mp3Head := .raises } =
      ⟨false, none, none, [Action.headObject ("song" ++ "/" ++ "song" ++ ".mp3")]⟩ :=
  claim_C2_amended (fun _ => "d41d") [7] "403" (by decide) "https://cdn" "song"
    (some [7]) ⟨.found "x" 0, .found "x" 0, true, true⟩

/-- Claim C3: when the artifact `<slug>.mp3` exists in the track directory
with a modification time strictly newer than the WAV source's,
`encode_mp3` returns that artifact path without invoking ffmpeg and leaves
the filesystem unchanged; consequently, running the transcoder twice with
an unchanged source invokes the encoder at most on the first run — if the
first run returns an artifact, the second run invokes no encoder and
returns the same deterministic path. -/
theorem claim_C3_transcoder_skip_idempotent (dir slug : String)
    (st : EncodeState) (enc enc2 : EncodeOutcome) (now now2 : Nat) :
    (st.mp3Exists = true → st.mp3Mtime > st.wavMtime →
      encode_mp3 dir slug st enc now = (some (dir ++ "/" ++ slug ++ ".mp3"), false, st)) ∧
    (now > st.wavMtime → (encode_mp3 dir slug st enc now).1.isSome = true →
      (encode_mp3 dir slug (encode_mp3 dir slug st enc now).2.2 enc2 now2).2.1 = false ∧
      (encode_mp3 dir slug (encode_mp3 dir slug st enc now).2.2 enc2 now2).1 =
        some (dir ++ "/" ++ slug ++ ".mp3")) := by
  constructor
  · intro hex hnew
    simp [encode_mp3, hex, hnew]
  · intro hnow hsome
    rcases Bool.eq_false_or_eq_true st.mp3Exists with hex | hex
    · by_cases hmt : st.mp3Mtime > st.wavMtime
      · simp [encode_mp3, hex, hmt]
      · cases enc with
        | success => simp [encode_mp3, ffmpegRun, hex, hmt, hnow]
        | errorExit => simp [encode_mp3, ffmpegRun, hex, hmt] at hsome
        | timeoutExpired => simp [encode_mp3, ffmpegRun, hex, hmt] at hsome
    · cases enc with
      | success => simp [encode_mp3, ffmpegRun, hex, hnow]
      | errorExit => simp [encode_mp3, ffmpegRun, hex] at hsome
      | timeoutExpired => simp [encode_mp3, ffmpegRun, hex] at hsome

/-- Claim C3, witness: a fresh artifact (mtime 5 against source mtime 3) is
returned unchanged with no encoder invocation, and after a first successful
run at time 10 a second run at time 11 invokes no encoder. -/
theorem claim_C3_witness :
    encode_mp3 "d" "s" ⟨true, 5, 3⟩ .success 10 =
      (some ("d" ++ "/" ++ "s" ++ ".mp3"), false, ⟨true, 5, 3⟩) ∧
    ((encode_mp3 "d" "s" (encode_mp3 "d" "s" ⟨false, 0, 3⟩ .success 10).2.2 .success 11).2.1 = false ∧
      (encode_mp3 "d" "s" (encode_mp3 "d" "s" ⟨false, 0, 3⟩ .success 10).2.2 .success 11).1 =
        some ("d" ++ "/" ++ "s" ++ ".mp3")) :=
  ⟨(claim_C3_transcoder_skip_idempotent "d" "s" ⟨true, 5, 3⟩ .success .success 10 11).1
      rfl (by decide),
    (claim_C3_transcoder_skip_idempotent "d" "s" ⟨false, 0, 3⟩ .success .success 10 11).2
      (by decide) rfl⟩

theorem charListLe_refl (l : List Char) : charListLe l l = true := by
  induction l with
  | nil => rfl
  | cons a as ih => simp [charListLe, ih]

theorem charListLe_trans :
    ∀ (a b c : List Char), charListLe a b = true → charListLe b c = true →
      charListLe a c = true := by
  intro a
  induction a with
  | nil => intro b c _ _; rfl
  | cons x xs ih =>
    intro b c hab hbc
    cases b with
    | nil => simp [charListLe] at hab
    | cons y ys =>
      cases c with
      | nil => simp [charListLe] at hbc
      | cons z zs =>
        simp only [charListLe] at hab hbc ⊢
        by_cases hxy : x.toNat < y.toNat
        · by_cases hyz : y.toNat < z.toNat
          · simp [show x.toNat < z.toNat by omega]
          · by_cases hzy : z.toNat < y.toNat
            · simp [hyz, hzy] at hbc
            · simp [show x.toNat < z.toNat by omega]
        · by_cases hyx : y.toNat < x.toNat
          · simp [hxy, hyx] at hab
          · by_cases hyz : y.toNat < z.toNat
            · simp [show x.toNat < z.toNat by omega]
            · by_cases hzy : z.toNat < y.toNat
              · simp [hyz, hzy] at hbc
              · have hxz : ¬ x.toNat < z.toNat := by omega
                have hzx : ¬ z.toNat < x.toNat := by omega
                rw [if_neg hxy, if_neg hyx] at hab
                rw [if_neg hyz, if_neg hzy] at hbc
                rw [if_neg hxz, if_neg hzx]
                exact ih ys zs hab hbc

theorem charListLe_total :
    ∀ (a b : List Char), charListLe a b = true ∨ charListLe b a = true := by
  intro a
  induction a with
  | nil => intro b; exact Or.inl rfl
  | cons x xs ih =>
    intro b
    cases b with
    | nil => exact Or.inr rfl
    | cons y ys =>
      simp only [charListLe]
      by_cases hxy : x.toNat < y.toNat
      · left; simp [hxy]
      · by_cases hyx : y.toNat < x.toNat
        · right; simp [hyx]
        · rcases ih ys with h | h
          · left; simp [hxy, hyx, h]
          · right; simp [hxy, hyx, h]

theorem nameLe_refl (a : String) : nameLe a a = true :=
  charListLe_refl a.data

theorem nameLe_trans (a b c : String) :
    nameLe a b = true → nameLe b c = true → nameLe a c = true :=
  charListLe_trans a.data b.data c.data

theorem nameLe_total (a b : String) : nameLe a b = true ∨ nameLe b a = true :=
  charListLe_total a.data b.data

theorem mem_insertSortedBy {α : Type} (le : α → α → Bool) (x a : α) (l : List α) :
    a ∈ insertSortedBy le x l ↔ a = x ∨ a ∈ l := by
  induction l with
  | nil => simp [insertSortedBy]
  | cons y ys ih =>
    simp only [insertSortedBy]
    split
    · simp [List.mem_cons]
    · simp only [List.mem_cons, ih]
      tauto

theorem mem_sortBy {α : Type} (le : α → α → Bool) (a : α) (l : List α) :
    a ∈ sortBy le l ↔ a ∈ l := by
  induction l with
  | nil => simp [sortBy]
  | cons x xs ih =>
    simp only [sortBy, mem_insertSortedBy, ih, List.mem_cons]

theorem pairwise_insertSortedBy {α : Type} (le : α → α → Bool)
    (htrans : ∀ a b c, le a b = true → le b c = true → le a c = true)
    (htot : ∀ a b, le a b = true ∨ le b a = true)
    (x : α) (l : List α) (h : l.Pairwise (fun a b => le a b = true)) :
    (insertSortedBy le x l).Pairwise (fun a b => le a b = true) := by
  induction l with
  | nil => simp [insertSortedBy]
  | cons y ys ih =>
    rcases List.pairwise_cons.mp h with ⟨hy, hys⟩
    simp only [insertSortedBy]
    split
    · rename_i hxy
      apply List.pairwise_cons.mpr
      refine ⟨?_, h⟩
      intro b hb
      rcases List.mem_cons.mp hb with rfl | hb
      · exact hxy
      · exact htrans x y b hxy (hy b hb)
    · rename_i hxy
      have hyx : le y x = true := by
        rcases htot x y with hcase | hcase
        · exact absurd hcase hxy
        · exact hcase
      apply List.pairwise_cons.mpr
      refine ⟨?_, ih hys⟩
      intro b hb
      rcases (mem_insertSortedBy le x b ys).mp hb with rfl | hb
      · exact hyx
      · exact hy b hb

theorem pairwise_sortBy {α : Type} (le : α → α → Bool)
    (htrans : ∀ a b c, le a b = true → le b c = true → le a c = true)
    (htot : ∀ a b, le a b = true ∨ le b a = true)
    (l : List α) : (sortBy le l).Pairwise (fun a b => le a b = true) := by
  induction l with
  | nil => simp [sortBy]
  | cons x xs ih => exact pairwise_insertSortedBy le htrans htot x (sortBy le xs) ih

theorem mem_foldl_filter (entries exts : List String) (x : String) (acc : List String) :
    x ∈ exts.foldl (fun acc ext => acc ++ entries.filter (globMatch ext)) acc ↔
      x ∈ acc ∨ ∃ ext ∈ exts, x ∈ entries ∧ globMatch ext x = true := by
  induction exts generalizing acc with
  | nil => simp
  | cons e es ih =>
    simp only [List.foldl_cons, ih, List.mem_append, List.mem_filter, List.mem_cons]
    constructor
    · rintro ((hx | hx) | ⟨ext, hext, hx⟩)
      · exact Or.inl hx
      · exact Or.inr ⟨e, Or.inl rfl, hx.1, hx.2⟩
      · exact Or.inr ⟨ext, Or.inr hext, hx⟩
    · rintro (hx | ⟨ext, (rfl | hext), hx⟩)
      · exact Or.inl (Or.inl hx)
      · exact Or.inl (Or.inr ⟨hx.1, hx.2⟩)
      · exact Or.inr ⟨ext, hext, hx⟩

theorem cover_min_of_sorted {c : String} {rest : List String}
    (h : (c :: rest).Pairwise (fun a b => nameLe a b = true)) :
    ∀ i ∈ c :: rest, nameLe c i = true := by
  intro i hi
  rcases List.mem_cons.mp hi with rfl | hi
  · exact nameLe_refl i
  · exact (List.pairwise_cons.mp h).1 i hi

/-- Claim C4 counterexample: in a directory listing
`["song.wav", "b.jpg", "a.Jpg"]`, the file `a.Jpg` has an accepted image
extension up to case and sorts lexicographically before `b.jpg`, yet
`find_files` does not match it at all (glob matching is case-sensitive and
the extension list holds only all-lowercase and all-uppercase variants), so
the designated cover is `b.jpg`, not the case-insensitively first matching
image filename `a.Jpg`. -/
theorem claim_C4_counterexample :
    find_files ["song.wav", "b.jpg", "a.Jpg"] = some ("song.wav", ["b.jpg"], "b.jpg") ∧
    matchesImageCI "a.Jpg" = true ∧
    nameLe "a.Jpg" "b.jpg" = true ∧
    ("a.Jpg" : String) ≠ "b.jpg" ∧
    "a.Jpg" ∉ (["b.jpg"] : List String) := by
  refine ⟨rfl, rfl, rfl, by decide, by decide⟩

/-- Claim C4 (amended): the asset locator matches the audio master and the
image files by extension against the fixed set containing the all-lowercase
and the all-uppercase variant of each accepted extension (mixed-case
extensions are not matched); it sorts the matched images lexicographically
by filename, and the designated primary cover is the lexicographically
first of the matched image filenames. -/
theorem claim_C4_amended_locator (entries : List String) (wav cover : String)
    (imgs : List String) (h : find_files entries = some (wav, imgs, cover)) :
    imgs = sortBy nameLe (image_extensions.foldl
      (fun acc ext => acc ++ entries.filter (globMatch ext)) []) ∧
    cover ∈ imgs ∧
    (∀ i ∈ imgs, nameLe cover i = true) ∧
    (∀ i ∈ imgs, i ∈ entries ∧ ∃ ext ∈ image_extensions, globMatch ext i = true) ∧
    (∀ e ∈ entries, ∀ ext ∈ image_extensions, globMatch ext e = true → e ∈ imgs) ∧
    wav ∈ entries ∧ (globMatch "wav" wav || globMatch "WAV" wav) = true := by
  unfold find_files at h
  split at h
  · exact absurd h (by simp)
  · rename_i wav0 ws hw
    split at h
    · exact absurd h (by simp)
    · rename_i c rest hs
      simp only [Option.some.injEq, Prod.mk.injEq] at h
      obtain ⟨h1, h2, h3⟩ := h
      subst h1
      subst h2
      subst h3
      have hws : wav0 ∈ entries.filter (globMatch "wav") ++ entries.filter (globMatch "WAV") := by
        rw [hw]; exact List.mem_cons_self _ _
      have hwav : wav0 ∈ entries ∧ (globMatch "wav" wav0 || globMatch "WAV" wav0) = true := by
        rcases List.mem_append.mp hws with hmem | hmem
        · rcases List.mem_filter.mp hmem with ⟨he, hg⟩
          exact ⟨he, by simp [hg]⟩
        · rcases List.mem_filter.mp hmem with ⟨he, hg⟩
          exact ⟨he, by simp [hg]⟩
      refine ⟨hs.symm, ?_, ?_, ?_, ?_, hwav⟩
      · exact List.mem_cons_self _ _
      · apply cover_min_of_sorted
        have hp := pairwise_sortBy nameLe nameLe_trans nameLe_total
          (image_extensions.foldl (fun acc ext => acc ++ entries.filter (globMatch ext)) [])
        rw [hs] at hp
        exact hp
      · intro i hi
        rw [← hs, mem_sortBy] at hi
        rcases (mem_foldl_filter entries image_extensions i []).mp hi with hx | ⟨ext, hext, hie, hg⟩
        · exact absurd hx (List.not_mem_nil i)
        · exact ⟨hie, ext, hext, hg⟩
      · intro e he ext hext hg
        rw [← hs, mem_sortBy]
        exact (mem_foldl_filter entries image_extensions e []).mpr
          (Or.inr ⟨ext, hext, he, hg⟩)

/-- Claim C4 amended, witness at a concrete directory listing. -/
theorem claim_C4_amended_witness :
    (["a.jpg"] : List String) = sortBy nameLe (image_extensions.foldl
      (fun acc ext => acc ++ (["song.wav", "a.jpg"].filter (globMatch ext))) []) ∧
    "a.jpg" ∈ (["a.jpg"] : List String) ∧
    (∀ i ∈ (["a.jpg"] : List String), nameLe "a.jpg" i = true) ∧
    (∀ i ∈ (["a.jpg"] : List String), i ∈ ["song.wav", "a.jpg"] ∧
      ∃ ext ∈ image_extensions, globMatch ext i = true) ∧
    (∀ e ∈ (["song.wav", "a.jpg"] : List String), ∀ ext ∈ image_extensions,
      globMatch ext e = true → e ∈ (["a.jpg"] : List String)) ∧
    "song.wav" ∈ (["song.wav", "a.jpg"] : List String) ∧
    (globMatch "wav" "song.wav" || globMatch "WAV" "song.wav") = true :=
  claim_C4_amended_locator ["song.wav", "a.jpg"] "song.wav" "a.jpg" ["a.jpg"] rfl

theorem load_metadata_title (yamlParse : String → Option (List (String × String)))
    (files : List (String × String)) (md : List (String × String))
    (h : load_metadata yamlParse files = some md) :
    md.any (fun kv => kv.1 == "title") = true := by
  unfold load_metadata at h
  split at h
  · cases h
  · split at h
    · split at h
      · split at h
        · injection h with h1
          subst h1
          assumption
        · cases h
      · cases h
    · cases h

theorem find_files_head (entries : List String) (wav cover : String)
    (imgs : List String) (h : find_files entries = some (wav, imgs, cover)) :
    imgs.head? = some cover := by
  unfold find_files at h
  split at h
  · cases h
  · split at h
    · cases h
    · simp only [Option.some.injEq, Prod.mk.injEq] at h
      obtain ⟨_, h2, h3⟩ := h
      subst h2
      subst h3
      rfl

theorem scan_tracks_mem (yamlParse : String → Option (List (String × String)))
    (dirs : List DirEntry) (t : TrackModel) (h : t ∈ scan_tracks yamlParse dirs) :
    ∃ d, d ∈ dirs ∧ d.isDir = true ∧ d.name ≠ "example-track" ∧
      ∃ md wf imgs cv,
        load_metadata yamlParse d.files = some md ∧
        find_files (d.files.map (·.1)) = some (wf, imgs, cv) ∧
        t = ⟨d.name, md, wf, imgs, cv⟩ := by
  unfold scan_tracks at h
  rcases List.mem_filterMap.mp h with ⟨d, hd, hfd⟩
  have hd' : d ∈ dirs := (mem_sortBy _ d dirs).mp hd
  refine ⟨d, hd', ?_⟩
  split at hfd
  · cases hfd
  · rename_i hdir
    split at hfd
    · cases hfd
    · rename_i hname
      split at hfd
      · cases hfd
      · rename_i md hload
        split at hfd
        · cases hfd
        · rename_i res wf imgs cv hfind
          injection hfd with h1
          exact ⟨Bool.not_eq_false _ ▸ (by simpa using hdir), hname,
            md, wf, imgs, cv, hload, hfind, h1.symm⟩

/-- Claim C5: every track surfaced to the renderer by `scan_tracks` is
fully valid — its metadata has a title, it has at least one image, and the
cover is the first image (the single chosen WAV source is a mandatory field
of the scanned track record) — and a track directory with two image files
and zero audio masters is excluded entirely even though its metadata
parsed. -/
theorem claim_C5_valid_or_excluded
    (yamlParse : String → Option (List (String × String))) (dirs : List DirEntry) :
    ((scan_tracks yamlParse dirs).all (fun t =>
      t.metadata.any (fun kv => kv.1 == "title") &&
      !t.images.isEmpty &&
      (t.images.head? == some t.cover)) = true) ∧
    load_metadata toyYamlParse boundaryDir.files = some [("title", "X")] ∧
    scan_tracks toyYamlParse [boundaryDir] = [] := by
  refine ⟨?_, rfl, rfl⟩
  · rw [List.all_eq_true]
    intro t ht
    obtain ⟨d, hd, hdir, hname, md, wf, imgs, cv, hload, hfind, rfl⟩ :=
      scan_tracks_mem _ _ _ ht
    have htitle := load_metadata_title _ _ _ hload
    have hhead := find_files_head _ _ _ _ hfind
    simp only [Bool.and_eq_true]
    refine ⟨⟨htitle, ?_⟩, ?_⟩
    · cases imgs with
      | nil => simp at hhead
      | cons a l => simp
    · rw [hhead]
      simp

/-- Claim C10: the directory scan unconditionally excludes every directory
named `example-track` from the track set, even one holding a valid content
file, an audio master and an image, while a valid directory of another name
is kept. -/
theorem claim_C10_example_track_excluded
    (yamlParse : String → Option (List (String × String))) (dirs : List DirEntry) :
    ((scan_tracks yamlParse dirs).all (fun t => !(t.name == "example-track")) = true) ∧
    scan_tracks toyYamlParse [exampleDir, validDir] =
      [⟨"my-song", [("title", "X")], "master.wav", ["cover.jpg"], "cover.jpg"⟩] := by
  constructor
  · rw [List.all_eq_true]
    intro t ht
    obtain ⟨d, hd, hdir, hname, md, wf, imgs, cv, hload, hfind, rfl⟩ :=
      scan_tracks_mem _ _ _ ht
    simpa using hname
  · rfl

theorem wavStage_spec (hc : Bool) (baseUrl : String) (md5hex : List Nat → String)
    (slug : String) (wavFile : Option (List Nat)) (w : S3World)
    (mp3url : String) (c : List Action) :
    (wavStage hc baseUrl md5hex slug wavFile w mp3url c).mp3_url = some mp3url ∧
    (∀ u, (wavStage hc baseUrl md5hex slug wavFile w mp3url c).wav_url = some u →
      u = baseUrl ++ "/" ++ (slug ++ "/" ++ slug ++ ".wav")) ∧
    (∀ k ct, Action.putObject k ct ∈ (wavStage hc baseUrl md5hex slug wavFile w mp3url c).calls →
      Action.putObject k ct ∈ c ∨ (k = slug ++ "/" ++ slug ++ ".wav" ∧ ct = "audio/wav")) ∧
    ((wavStage hc baseUrl md5hex slug wavFile w mp3url c).wav_url.isSome = true ↔
      ∃ wf, wavFile = some wf ∧ ∃ n tg,
        file_needs_upload hc md5hex wf w.wavHead = .ok (n, tg) ∧
        (n = true → w.wavUploadOk = true)) := by
  unfold wavStage
  split
  · refine ⟨rfl, by simp, fun k ct hk => Or.inl hk, by simp⟩
  · rename_i wf
    split
    · rename_i heq
      refine ⟨rfl, by simp, ?_, ?_⟩
      · intro k ct hk
        simp only [List.mem_append, List.mem_cons, List.not_mem_nil, or_false] at hk
        rcases hk with hk | hk
        · exact Or.inl hk
        · cases hk
      · simp only [Option.isSome_none, Bool.false_eq_true, false_iff]
        rintro ⟨wf', hwf, n, tg, hok, -⟩
        injection hwf with hwf
        subst hwf
        rw [heq] at hok
        cases hok
    · rename_i needs2 tg2 heq2
      split
      · rename_i hn
        split
        · rename_i hok
          refine ⟨rfl, ?_, ?_, ?_⟩
          · intro u hu
            injection hu with hu
            exact hu.symm
          · intro k ct hk
            simp only [List.mem_append, List.mem_cons, List.not_mem_nil, or_false] at hk
            rcases hk with hk | hk | hk
            · exact Or.inl hk
            · cases hk
            · injection hk with h1 h2
              exact Or.inr ⟨h1, h2⟩
          · simp only [Option.isSome_some, true_iff]
            exact ⟨wf, rfl, needs2, tg2, heq2, fun _ => hok⟩
        · rename_i hok
          rw [Bool.not_eq_true] at hok
          refine ⟨rfl, by simp, ?_, ?_⟩
          · intro k ct hk
            simp only [List.mem_append, List.mem_cons, List.not_mem_nil, or_false] at hk
            rcases hk with hk | hk | hk
            · exact Or.inl hk
            · cases hk
            · injection hk with h1 h2
              exact Or.inr ⟨h1, h2⟩
          · simp only [Option.isSome_none, Bool.false_eq_true, false_iff]
            rintro ⟨wf', hwf, n, tg, hok', himp⟩
            injection hwf with hwf
            subst hwf
            rw [heq2] at hok'
            injection hok' with hpair
            have hn' : needs2 = n := congrArg Prod.fst hpair
            rw [← hn'] at himp
            rw [himp hn] at hok
            cases hok
      · rename_i hn
        rw [Bool.not_eq_true] at hn
        refine ⟨rfl, ?_, ?_, ?_⟩
        · intro u hu
          injection hu with hu
          exact hu.symm
        · intro k ct hk
          simp only [List.mem_append, List.mem_cons, List.not_mem_nil, or_false] at hk
          rcases hk with hk | hk
          · exact Or.inl hk
          · cases hk
        · simp only [Option.isSome_some, true_iff]
          exact ⟨wf, rfl, needs2, tg2, heq2, fun h => absurd h (by simp [hn])⟩

/-- Claim C6: every remote URL field set by `upload_to_s3` equals
`<base-url>/<slug>/<slug>.mp3` (compressed) or `<base-url>/<slug>/<slug>.wav`
(lossless); every upload performed carries exactly one of the two keys with
content type `audio/mpeg` for the compressed and `audio/wav` for the
lossless artifact; and each URL field is set exactly when its stage is
reached and either the comparator reports the remote copy current
(needs-upload false) or the upload for it succeeds. -/
theorem claim_C6_publisher_urls (hc bs : Bool) (baseUrl : String)
    (md5hex : List Nat → String) (slug : String) (mp3File : List Nat)
    (wavFile : Option (List Nat)) (w : S3World) :
    (∀ u, (upload_to_s3 hc bs baseUrl md5hex slug mp3File wavFile w).mp3_url = some u →
      u = baseUrl ++ "/" ++ (slug ++ "/" ++ slug ++ ".mp3")) ∧
    (∀ u, (upload_to_s3 hc bs baseUrl md5hex slug mp3File wavFile w).wav_url = some u →
      u = baseUrl ++ "/" ++ (slug ++ "/" ++ slug ++ ".wav")) ∧
    (∀ k ct, Action.putObject k ct ∈
        (upload_to_s3 hc bs baseUrl md5hex slug mp3File wavFile w).calls →
      (k = slug ++ "/" ++ slug ++ ".mp3" ∧ ct = "audio/mpeg") ∨
      (k = slug ++ "/" ++ slug ++ ".wav" ∧ ct = "audio/wav")) ∧
    ((upload_to_s3 hc bs baseUrl md5hex slug mp3File wavFile w).mp3_url.isSome = true ↔
      (hc = true ∧ bs = true ∧ ∃ n tg,
        file_needs_upload hc md5hex mp3File w.mp3Head = .ok (n, tg) ∧
        (n = true → w.mp3UploadOk = true))) ∧
    ((upload_to_s3 hc bs baseUrl md5hex slug mp3File wavFile w).wav_url.isSome = true ↔
      ((upload_to_s3 hc bs baseUrl md5hex slug mp3File wavFile w).mp3_url.isSome = true ∧
        ∃ wf, wavFile = some wf ∧ ∃ n tg,
          file_needs_upload hc md5hex wf w.wavHead = .ok (n, tg) ∧
          (n = true → w.wavUploadOk = true))) := by
  unfold upload_to_s3
  split
  · rename_i hguard
    refine ⟨by simp, by simp, by simp, ?_, by simp⟩
    simp only [Option.isSome_none, Bool.false_eq_true, false_iff]
    rintro ⟨h1, h2, -⟩
    rcases hguard with h | h
    · rw [h] at h1; cases h1
    · rw [h] at h2; cases h2
  · rename_i hguard
    have hc' : hc = true := by
      rcases Bool.eq_false_or_eq_true hc with h | h
      · exact h
      · exact absurd (Or.inl h) hguard
    have hb' : bs = true := by
      rcases Bool.eq_false_or_eq_true bs with h | h
      · exact h
      · exact absurd (Or.inr h) hguard
    split
    · rename_i heq
      refine ⟨by simp, by simp, ?_, ?_, by simp⟩
      · intro k ct hk
        simp only [List.mem_cons, List.not_mem_nil, or_false] at hk
        cases hk
      · simp only [Option.isSome_none, Bool.false_eq_true, false_iff]
        rintro ⟨-, -, n, tg, hok, -⟩
        rw [heq] at hok
        cases hok
    · rename_i needs1 tg1 heq1
      split
      · rename_i hn
        split
        · rename_i hok
          obtain ⟨hm, hwavu, hput, hiff⟩ := wavStage_spec hc baseUrl md5hex slug wavFile w
            (baseUrl ++ "/" ++ (slug ++ "/" ++ slug ++ ".mp3"))
            [Action.headObject (slug ++ "/" ++ slug ++ ".mp3"),
              Action.putObject (slug ++ "/" ++ slug ++ ".mp3") "audio/mpeg"]
          refine ⟨?_, hwavu, ?_, ?_, ?_⟩
          · intro u hu
            rw [hm] at hu
            injection hu with hu
            exact hu.symm
          · intro k ct hk
            rcases hput k ct hk with hk | hk
            · simp only [List.mem_cons, List.not_mem_nil, or_false] at hk
              rcases hk with hk | hk
              · cases hk
              · injection hk with h1 h2
                exact Or.inl ⟨h1, h2⟩
            · exact Or.inr hk
          · rw [hm]
            simp only [Option.isSome_some, true_iff]
            exact ⟨hc', hb', needs1, tg1, heq1, fun _ => hok⟩
          · rw [hiff, hm]
            simp only [Option.isSome_some, true_and]
        · rename_i hok
          rw [Bool.not_eq_true] at hok
          refine ⟨by simp, by simp, ?_, ?_, by simp⟩
          · intro k ct hk
            simp only [List.mem_cons, List.not_mem_nil, or_false] at hk
            rcases hk with hk | hk
            · cases hk
            · injection hk with h1 h2
              exact Or.inl ⟨h1, h2⟩
          · simp only [Option.isSome_none, Bool.false_eq_true, false_iff]
            rintro ⟨-, -, n, tg, hok', himp⟩
            rw [heq1] at hok'
            injection hok' with hpair
            have hn' : needs1 = n := congrArg Prod.fst hpair
            rw [← hn'] at himp
            rw [himp hn] at hok
            cases hok
      · rename_i hn
        rw [Bool.not_eq_true] at hn
        obtain ⟨hm, hwavu, hput, hiff⟩ := wavStage_spec hc baseUrl md5hex slug wavFile w
          (baseUrl ++ "/" ++ (slug ++ "/" ++ slug ++ ".mp3"))
          [Action.headObject (slug ++ "/" ++ slug ++ ".mp3")]
        refine ⟨?_, hwavu, ?_, ?_, ?_⟩
        · intro u hu
          rw [hm] at hu
          injection hu with hu
          exact hu.symm
        · intro k ct hk
          rcases hput k ct hk with hk | hk
          · simp only [List.mem_cons, List.not_mem_nil, or_false] at hk
            cases hk
          · exact Or.inr hk
        · rw [hm]
          simp only [Option.isSome_some, true_iff]
          exact ⟨hc', hb', needs1, tg1, heq1, fun h => absurd h (by simp [hn])⟩
        · rw [hiff, hm]
          simp only [Option.isSome_some, true_and]

/-- Claim C6, witness: the MP3 is absent remotely (404) and uploaded, the
WAV matches its remote MD5 tag and is skipped; both URL fields are set. -/
theorem claim_C6_witness :
    (∀ u, (upload_to_s3 true true "https://cdn" (fun _ => "h") "s" [] (some [])
        ⟨.clientError "404", .found "\"h\"" 0, true, true⟩).mp3_url = some u →
      u = "https://cdn" ++ "/" ++ ("s" ++ "/" ++ "s" ++ ".mp3")) ∧
    (∀ u, (upload_to_s3 true true "https://cdn" (fun _ => "h") "s" [] (some [])
        ⟨.clientError "404", .found "\"h\"" 0, true, true⟩).wav_url = some u →
      u = "https://cdn" ++ "/" ++ ("s" ++ "/" ++ "s" ++ ".wav")) ∧
    (∀ k ct, Action.putObject k ct ∈ (upload_to_s3 true true "https://cdn" (fun _ => "h")
        "s" [] (some []) ⟨.clientError "404", .found "\"h\"" 0, true, true⟩).calls →
      (k = "s" ++ "/" ++ "s" ++ ".mp3" ∧ ct = "audio/mpeg") ∨
      (k = "s" ++ "/" ++ "s" ++ ".wav" ∧ ct = "audio/wav")) ∧
    ((upload_to_s3 true true "https://cdn" (fun _ => "h") "s" [] (some [])
        ⟨.clientError "404", .found "\"h\"" 0, true, true⟩).mp3_url.isSome = true ↔
      (true = true ∧ true = true ∧ ∃ n tg,
        file_needs_upload true (fun _ => "h") [] (HeadResult.clientError "404") = .ok (n, tg) ∧
        (n = true → true = true))) ∧
    ((upload_to_s3 true true "https://cdn" (fun _ => "h") "s" [] (some [])
        ⟨.clientError "404", .found "\"h\"" 0, true, true⟩).wav_url.isSome = true ↔
      ((upload_to_s3 true true "https://cdn" (fun _ => "h") "s" [] (some [])
        ⟨.clientError "404", .found "\"h\"" 0, true, true⟩).mp3_url.isSome = true ∧
        ∃ wf, (some [] : Option (List Nat)) = some wf ∧ ∃ n tg,
          file_needs_upload true (fun _ => "h") wf (HeadResult.found "\"h\"" 0) = .ok (n, tg) ∧
          (n = true → true = true))) :=
  claim_C6_publisher_urls true true "https://cdn" (fun _ => "h") "s" [] (some [])
    ⟨.clientError "404", .found "\"h\"" 0, true, true⟩

/-- Claim C7: the build exits nonzero exactly when the dependency check
fails (performed only outside static-only mode), no valid track is found,
or rendering raises; whenever it exits zero the render step was reached,
and the exit code never depends on the per-track encoder outcomes or
remote-store behaviour — per-track failures are never fatal. -/
theorem claim_C7_exit_code (p : String → Option (List (String × String)))
    (bi : BuildInput) :
    (decide (exitCode (build p bi).result ≠ 0) =
      ((!bi.staticOnly && !bi.depsOk) || (scan_tracks p bi.dirs).isEmpty ||
        bi.renderRaises)) ∧
    (exitCode (build p bi).result = 0 → Action.render ∈ (build p bi).actions) ∧
    (∀ encO : String → EncodeOutcome, ∀ s3w : String → S3World,
      exitCode (build p { bi with encOutcome := encO, s3 := s3w }).result =
        exitCode (build p bi).result) := by
  rcases Bool.eq_false_or_eq_true bi.staticOnly with hs | hs <;>
    rcases Bool.eq_false_or_eq_true bi.depsOk with hd | hd <;>
      rcases Bool.eq_false_or_eq_true (scan_tracks p bi.dirs).isEmpty with ht | ht <;>
        rcases Bool.eq_false_or_eq_true bi.renderRaises with hr | hr <;>
          refine ⟨?_, ?_, fun encO s3w => ?_⟩ <;>
            simp [build, exitCode, hs, hd, ht, hr, List.mem_append]

/-- Claim C7, witness: a static-only run over one valid track exits zero
and reaches the render step, and replacing the encoder outcome by a failure
and the remote store by raising calls leaves the exit code unchanged. -/
theorem claim_C7_witness :
    Action.render ∈ (build toyYamlParse toyBuildInput).actions ∧
    exitCode (build toyYamlParse { toyBuildInput with
        encOutcome := fun _ => .errorExit,
        s3 := fun _ => ⟨.raises, .raises, false, false⟩ }).result =
      exitCode (build toyYamlParse toyBuildInput).result :=
  ⟨(claim_C7_exit_code toyYamlParse toyBuildInput).2.1 (by rfl),
    (claim_C7_exit_code toyYamlParse toyBuildInput).2.2
      (fun _ => .errorExit) (fun _ => ⟨.raises, .raises, false, false⟩)⟩

theorem mem_copyInto_left {old new : List String} {n : String} (h : n ∈ old) :
    n ∈ copyInto old new :=
  List.mem_append.mpr (Or.inl h)

theorem mem_copyInto_right {old new : List String} {n : String} (h : n ∈ new) :
    n ∈ copyInto old new := by
  by_cases ho : n ∈ old
  · exact List.mem_append.mpr (Or.inl ho)
  · refine List.mem_append.mpr (Or.inr ?_)
    rw [List.mem_filter]
    refine ⟨h, ?_⟩
    simp [ho]

/-- Claim C8 counterexample: with identical current inputs (same assets
source and same single track), two runs of `generate_site` from different
prior output trees produce different output trees — the stale page
`old-track.html` left by an earlier run persists in `docs/tracks` — so the
output tree does not depend only on the current track set and inputs. -/
theorem claim_C8_counterexample :
    generate_site (some ["style.css"])
        [⟨"t", [("title", "X")], "m.wav", ["c.jpg"], "c.jpg"⟩] ⟨[], [], [], false⟩ ≠
      generate_site (some ["style.css"])
        [⟨"t", [("title", "X")], "m.wav", ["c.jpg"], "c.jpg"⟩]
        ⟨[], ["old-cover.jpg"], ["old-track.html"], false⟩ ∧
    "old-track.html" ∈ (generate_site (some ["style.css"])
        [⟨"t", [("title", "X")], "m.wav", ["c.jpg"], "c.jpg"⟩]
        ⟨[], ["old-cover.jpg"], ["old-track.html"], false⟩).trackPages := by
  exact ⟨by decide, by decide⟩

/-- Claim C8 (amended): on each run the output directories are created
idempotently and the static assets subtree is removed and recreated as an
exact copy of the current assets source (when that source exists), so the
assets subtree depends only on current inputs; the covers, track pages and
index for the current track set are all written, but stale covers and track
pages left in the output tree by earlier runs are not removed and persist. -/
theorem claim_C8_amended_renderer (src : List String) (tracks : List TrackModel)
    (prev : OutputTree) :
    (generate_site (some src) tracks prev).assets = src ∧
    (generate_site none tracks prev).assets = prev.assets ∧
    (∀ t ∈ tracks, ∀ i ∈ t.images,
      (t.name ++ "-" ++ i) ∈ (generate_site (some src) tracks prev).covers) ∧
    (∀ t ∈ tracks, (t.name ++ ".html") ∈ (generate_site (some src) tracks prev).trackPages) ∧
    (generate_site (some src) tracks prev).hasIndex = true ∧
    (∀ n ∈ prev.covers, n ∈ (generate_site (some src) tracks prev).covers) ∧
    (∀ n ∈ prev.trackPages, n ∈ (generate_site (some src) tracks prev).trackPages) := by
  refine ⟨rfl, rfl, ?_, ?_, rfl, ?_, ?_⟩
  · intro t ht i hi
    exact mem_copyInto_right (List.mem_flatMap.mpr ⟨t, ht, List.mem_map.mpr ⟨i, hi, rfl⟩⟩)
  · intro t ht
    exact mem_copyInto_right (List.mem_map.mpr ⟨t, ht, rfl⟩)
  · intro n hn
    exact mem_copyInto_left hn
  · intro n hn
    exact mem_copyInto_left hn

/-- Claim C8 amended, witness at a concrete run over a stale output tree. -/
theorem claim_C8_amended_witness :
    (generate_site (some ["style.css"])
      [⟨"t", [("title", "X")], "m.wav", ["c.jpg"], "c.jpg"⟩]
      ⟨[], ["old-cover.jpg"], ["old-track.html"], false⟩).assets = ["style.css"] ∧
    ("t" ++ "-" ++ "c.jpg") ∈ (generate_site (some ["style.css"])
      [⟨"t", [("title", "X")], "m.wav", ["c.jpg"], "c.jpg"⟩]
      ⟨[], ["old-cover.jpg"], ["old-track.html"], false⟩).covers ∧
    ("t" ++ ".html") ∈ (generate_site (some ["style.css"])
      [⟨"t", [("title", "X")], "m.wav", ["c.jpg"], "c.jpg"⟩]
      ⟨[], ["old-cover.jpg"], ["old-track.html"], false⟩).trackPages ∧
    "old-track.html" ∈ (generate_site (some ["style.css"])
      [⟨"t", [("title", "X")], "m.wav", ["c.jpg"], "c.jpg"⟩]
      ⟨[], ["old-cover.jpg"], ["old-track.html"], false⟩).trackPages := by
  obtain ⟨h1, -, h3, h4, -, -, h7⟩ := claim_C8_amended_renderer ["style.css"]
    [⟨"t", [("title", "X")], "m.wav", ["c.jpg"], "c.jpg"⟩]
    ⟨[], ["old-cover.jpg"], ["old-track.html"], false⟩
  refine ⟨h1, ?_, ?_, ?_⟩
  · exact h3 ⟨"t", [("title", "X")], "m.wav", ["c.jpg"], "c.jpg"⟩ (by decide) "c.jpg" (by decide)
  · exact h4 ⟨"t", [("title", "X")], "m.wav", ["c.jpg"], "c.jpg"⟩ (by decide)
  · exact h7 "old-track.html" (by decide)

/-- Claim C9: a static-only build with no remote-store configuration and at
least one valid track (artifacts already encoded) succeeds, performs the
render step as its only externally observable action — no dependency
check, no encoder invocation, no remote-store call — and its output is the
complete rendered site for the scanned tracks: every track page and every
slug-prefixed cover copy present, plus the index. -/
theorem claim_C9_static_only (p : String → Option (List (String × String)))
    (bi : BuildInput) (hstatic : bi.staticOnly = true)
    (hclient : bi.hasClient = false) (hbucket : bi.bucketSet = false)
    (htracks : (scan_tracks p bi.dirs).isEmpty = false)
    (hrender : bi.renderRaises = false)
    (hartifact : ∀ t ∈ scan_tracks p bi.dirs, (bi.encStates t.name).mp3Exists = true) :
    (build p bi).result = .ok true ∧
    (build p bi).actions = [Action.render] ∧
    (build p bi).output =
      generate_site bi.assetsSrc (scan_tracks p bi.dirs) bi.prevOutput ∧
    (∀ t ∈ scan_tracks p bi.dirs,
      (t.name ++ ".html") ∈ (build p bi).output.trackPages ∧
      ∀ i ∈ t.images, (t.name ++ "-" ++ i) ∈ (build p bi).output.covers) ∧
    (build p bi).output.hasIndex = true := by
  have hb : build p bi =
      ⟨.ok true, [Action.render],
        generate_site bi.assetsSrc (scan_tracks p bi.dirs) bi.prevOutput⟩ := by
    simp [build, hstatic, htracks, hrender]
  refine ⟨by rw [hb], by rw [hb], by rw [hb], ?_, ?_⟩
  · intro t ht
    rw [hb]
    constructor
    · show (t.name ++ ".html") ∈ copyInto bi.prevOutput.trackPages
        ((scan_tracks p bi.dirs).map (fun t => t.name ++ ".html"))
      exact mem_copyInto_right (List.mem_map.mpr ⟨t, ht, rfl⟩)
    · intro i hi
      show (t.name ++ "-" ++ i) ∈ copyInto bi.prevOutput.covers
        ((scan_tracks p bi.dirs).flatMap (fun t => t.images.map (fun i => t.name ++ "-" ++ i)))
      exact mem_copyInto_right (List.mem_flatMap.mpr ⟨t, ht, List.mem_map.mpr ⟨i, hi, rfl⟩⟩)
  · rw [hb]
    rfl

/-- Claim C9, witness: the concrete static-only build input over one valid
track with no remote configuration. -/
theorem claim_C9_witness :
    (build toyYamlParse toyBuildInput).result = .ok true ∧
    (build toyYamlParse toyBuildInput).actions = [Action.render] ∧
    (build toyYamlParse toyBuildInput).output =
      generate_site toyBuildInput.assetsSrc
        (scan_tracks toyYamlParse toyBuildInput.dirs) toyBuildInput.prevOutput ∧
    (∀ t ∈ scan_tracks toyYamlParse toyBuildInput.dirs,
      (t.name ++ ".html") ∈ (build toyYamlParse toyBuildInput).output.trackPages ∧
      ∀ i ∈ t.images,
        (t.name ++ "-" ++ i) ∈ (build toyYamlParse toyBuildInput).output.covers) ∧
    (build toyYamlParse toyBuildInput).output.hasIndex = true :=
  claim_C9_static_only toyYamlParse toyBuildInput rfl rfl rfl rfl rfl (by decide)

end Giraffe
